import Mathlib

/-
  Verification of the Seedling_GithubChecker pipeline (src/main.py).

  The development shallowly embeds the three core functions of main.py:
    fetch_github_data   (main.py lines 32-79)
    analyze_with_gemini (main.py lines 81-128)
    render_dashboard    (main.py lines 132-169)
  together with the fragments of the Python runtime they rely on
  (json.loads / json.dumps on the integer numeric fragment, dict.update,
  str.replace, str.strip, the membership and subscript operators).
  External effects (HTTP requests, the Gemini SDK) are passed in as
  oracle functions, and exceptions are modelled with Except.
-/

namespace GithubChecker

/-- JSON values as produced by the Python json module, restricted to the
integer numeric fragment (the schema main.py demands uses integer scores;
float literals are outside this model and are treated as parse errors). -/
inductive JsonValue where
  | null : JsonValue
  | bool : Bool → JsonValue
  | num : Int → JsonValue
  | str : String → JsonValue
  | arr : List JsonValue → JsonValue
  | obj : List (String × JsonValue) → JsonValue

/-- Python equality as used on dict keys, for the hashable JSON values.
Python has True == 1 and False == 0 across bool/int. -/
def keyEq : JsonValue → JsonValue → Bool
  | .str a, .str b => a == b
  | .num a, .num b => a == b
  | .bool a, .bool b => a == b
  | .bool a, .num b => (if a then (1 : Int) else 0) == b
  | .num a, .bool b => a == (if b then (1 : Int) else 0)
  | .null, .null => true
  | _, _ => false

/-- A Python dict in insertion order (keys are JSON values; the program
only ever creates string keys directly, but dict.update can insert
other hashable keys). -/
abbrev PyDict := List (JsonValue × JsonValue)

/-- Python d[k] = v: replace the value of the matching key in place
(keeping the original key object and its position), else append. -/
def dictSet (d : PyDict) (k v : JsonValue) : PyDict :=
  match d with
  | [] => [(k, v)]
  | (k0, v0) :: rest => if keyEq k0 k then (k0, v) :: rest else (k0, v0) :: dictSet rest k v

/-- Python d.get(k) / d[k] lookup (first matching key). -/
def dictLookup (d : PyDict) (k : JsonValue) : Option JsonValue :=
  match d with
  | [] => none
  | (k0, v0) :: rest => if keyEq k0 k then some v0 else dictLookup rest k

/-- First-occurrence lookup in a JSON object literal (json.loads produces
dicts, whose keys are unique, so first and last occurrence coincide). -/
def objFind (kvs : List (String × JsonValue)) (k : String) : Option JsonValue :=
  match kvs with
  | [] => none
  | (k0, v0) :: rest => if k0 == k then some v0 else objFind rest k

/-- Last-occurrence lookup: the value a left fold of dict assignments
leaves behind for a key. -/
def objLookup (kvs : List (String × JsonValue)) (k : String) : Option JsonValue :=
  match kvs with
  | [] => none
  | (k0, v0) :: rest =>
    match objLookup rest k with
    | some v => some v
    | none => if k0 == k then some v0 else none

/-- Assignment on a string-keyed association list, Python-dict style:
existing key keeps its position, new key is appended. -/
def objSet (kvs : List (String × JsonValue)) (k : String) (v : JsonValue) :
    List (String × JsonValue) :=
  match kvs with
  | [] => [(k, v)]
  | (k0, v0) :: rest => if k0 == k then (k0, v) :: rest else (k0, v0) :: objSet rest k v

/-- Lower-case hex digit. -/
def hexDigit (n : Nat) : Char :=
  if n < 10 then Char.ofNat (48 + n) else Char.ofNat (87 + n)

/-- Two lower-case hex digits. -/
def hex2 (n : Nat) : String := String.mk [hexDigit (n / 16 % 16), hexDigit (n % 16)]

/-- Four lower-case hex digits. -/
def hex4 (n : Nat) : String :=
  String.mk [hexDigit (n / 4096 % 16), hexDigit (n / 256 % 16), hexDigit (n / 16 % 16),
    hexDigit (n % 16)]

/-- Python repr of a string: quote preference and escaping as in CPython
(single quotes unless the string holds a single quote and no double
quote; control characters escaped). -/
def pyReprStr (s : String) : String :=
  let hasS := s.data.contains (Char.ofNat 39)
  let hasD := s.data.contains (Char.ofNat 34)
  let q : Char := if hasS && !hasD then Char.ofNat 34 else Char.ofNat 39
  let esc : Char → String := fun c =>
    if c == Char.ofNat 92 then "\\\\"
    else if c == q then "\\" ++ String.singleton q
    else if c == Char.ofNat 10 then "\\n"
    else if c == Char.ofNat 13 then "\\r"
    else if c == Char.ofNat 9 then "\\t"
    else if c.toNat < 32 || c.toNat == 127 then "\\x" ++ hex2 c.toNat
    else String.singleton c
  String.singleton q ++ String.join (s.data.map esc) ++ String.singleton q

mutual

/-- Python repr() of a parsed JSON value. -/
def pyRepr : JsonValue → String
  | .null => "None"
  | .bool true => "True"
  | .bool false => "False"
  | .num n => toString n
  | .str s => pyReprStr s
  | .arr xs => "[" ++ pyReprList xs ++ "]"
  | .obj kvs => "\x7b" ++ pyReprObj kvs ++ "\x7d"

/-- Comma-separated reprs of list elements. -/
def pyReprList : List JsonValue → String
  | [] => ""
  | [x] => pyRepr x
  | x :: y :: rest => pyRepr x ++ ", " ++ pyReprList (y :: rest)

/-- Comma-separated key: value reprs of dict items. -/
def pyReprObj : List (String × JsonValue) → String
  | [] => ""
  | [(k, v)] => pyReprStr k ++ ": " ++ pyRepr v
  | (k, v) :: y :: rest => pyReprStr k ++ ": " ++ pyRepr v ++ ", " ++ pyReprObj (y :: rest)

end

/-- Python str() of a parsed JSON value, as interpolated by f-strings:
identity on strings, repr-style rendering otherwise. -/
def pyStr (v : JsonValue) : String :=
  match v with
  | .str s => s
  | _ => pyRepr v

/-- Does pat occur as a prefix of l (list form of str.startswith)? -/
def isPfx : List Char → List Char → Bool
  | [], _ => true
  | _ :: _, [] => false
  | a :: as, b :: bs => a == b && isPfx as bs

/-- Does pat occur as a contiguous substring of hay (Python `pat in hay`)? -/
def hasSub (hay pat : List Char) : Bool :=
  match hay with
  | [] => isPfx pat []
  | c :: t => isPfx pat (c :: t) || hasSub t pat

/-- Python `needle in container` for a string needle, over a parsed JSON
value: key test on dicts, element equality on lists (a string equals no
non-string), substring test on strings, TypeError otherwise. -/
def pyInStr (needle : String) : JsonValue → Except String Bool
  | .obj kvs => .ok (kvs.any (fun kv => kv.1 == needle))
  | .arr xs =>
    .ok (xs.any (fun x => match x with | .str s => s == needle | _ => false))
  | .str s => .ok (hasSub s.data needle.data)
  | _ => .error "TypeError: argument of type is not iterable"

/-- Python container[k] for a string key k. -/
def pyGetItemStr (v : JsonValue) (k : String) : Except String JsonValue :=
  match v with
  | .obj kvs =>
    match objFind kvs k with
    | some x => .ok x
    | none => .error ("KeyError: " ++ k)
  | .arr _ => .error "TypeError: list indices must be integers or slices, not str"
  | .str _ => .error "TypeError: string indices must be integers"
  | _ => .error "TypeError: object is not subscriptable"

/-- Which JSON values may serve as Python dict keys (lists and dicts are
unhashable). -/
def hashableKey : JsonValue → Bool
  | .arr _ => false
  | .obj _ => false
  | _ => true

/-- One element of a dict.update sequence argument: it must behave as a
sequence of length 2 (a two-element list, a two-character string, or a
two-key dict, whose iteration yields its keys). -/
def updateItem (d : PyDict) (x : JsonValue) : Except String PyDict :=
  match x with
  | .arr [k, v] =>
    if hashableKey k then .ok (dictSet d k v)
    else .error "TypeError: unhashable type"
  | .arr l =>
    .error ("ValueError: dictionary update sequence element has length " ++
      toString l.length ++ "; 2 is required")
  | .str s =>
    match s.data with
    | [a, b] => .ok (dictSet d (.str (String.singleton a)) (.str (String.singleton b)))
    | l =>
      .error ("ValueError: dictionary update sequence element has length " ++
        toString l.length ++ "; 2 is required")
  | .obj [(k1, _), (k2, _)] => .ok (dictSet d (.str k1) (.str k2))
  | .obj l =>
    .error ("ValueError: dictionary update sequence element has length " ++
      toString l.length ++ "; 2 is required")
  | _ => .error "TypeError: cannot convert dictionary update sequence element to a sequence"

/-- A dict.update sequence processed element by element, mutating the
dict in place as CPython does: a failing element stops the update but
keeps the insertions already made.  Returns the dict as mutated and the
raised message, if any. -/
def updateSeq (d : PyDict) : List JsonValue → PyDict × Option String
  | [] => (d, none)
  | x :: xs =>
    match updateItem d x with
    | .ok d2 => updateSeq d2 xs
    | .error e => (d, some e)

/-- Python d.update(v) for v an arbitrary parsed JSON value: dicts merge
key by key in iteration order; lists and strings are update sequences
whose elements must be length-2 sequences, mutated into d one by one (a
late failure keeps the earlier insertions); anything else raises a
TypeError before any mutation.  Returns the dict as left by the call and
the raised message, if any. -/
def pyUpdate (d : PyDict) (v : JsonValue) : PyDict × Option String :=
  match v with
  | .obj kvs => (kvs.foldl (fun acc kv => dictSet acc (.str kv.1) kv.2) d, none)
  | .arr xs => updateSeq d xs
  | .str s => updateSeq d (s.data.map (fun c => JsonValue.str (String.singleton c)))
  | _ => (d, some "TypeError: object is not iterable")

/-- Fuelled left-to-right scan of str.replace (the fuel only serves to
make the recursion structural; each step consumes at least one character
of hay when the pattern is nonempty, so hay.length + 1 fuel is exact). -/
def replaceF : Nat → List Char → List Char → List Char → List Char
  | 0, hay, _, _ => hay
  | _ + 1, [], _, _ => []
  | fuel + 1, h :: t, pat, rep =>
    if isPfx pat (h :: t) then rep ++ replaceF fuel ((h :: t).drop pat.length) pat rep
    else h :: replaceF fuel t pat rep

/-- Python str.replace on char lists: replace every non-overlapping
occurrence of pat, scanning left to right.  (An empty pattern splices the
replacement between all characters, as in Python.) -/
def replaceL (hay pat rep : List Char) : List Char :=
  match pat with
  | [] => rep ++ hay.foldr (fun c acc => c :: (rep ++ acc)) []
  | _ :: _ => replaceF (hay.length + 1) hay pat rep

/-- Python str.replace. -/
def pyReplace (s pat rep : String) : String := String.mk (replaceL s.data pat.data rep.data)

/-- The whitespace set of Python str.strip (ASCII fragment). -/
def pyIsSpace (c : Char) : Bool :=
  c == Char.ofNat 32 || c == Char.ofNat 9 || c == Char.ofNat 10 || c == Char.ofNat 13 ||
    c == Char.ofNat 11 || c == Char.ofNat 12

/-- Drop leading whitespace. -/
def trimLeftL (l : List Char) : List Char := l.dropWhile pyIsSpace

/-- Drop trailing whitespace. -/
def trimRightL (l : List Char) : List Char := (l.reverse.dropWhile pyIsSpace).reverse

/-- Python str.strip(). -/
def pyStrip (s : String) : String := String.mk (trimLeftL (trimRightL s.data))

/-! ### json.loads, on the integer numeric fragment -/

/-- The whitespace the JSON grammar allows between tokens. -/
def isJsonWsC (c : Char) : Bool :=
  c == Char.ofNat 32 || c == Char.ofNat 9 || c == Char.ofNat 10 || c == Char.ofNat 13

/-- Skip JSON inter-token whitespace. -/
def skipWs (l : List Char) : List Char :=
  match l with
  | c :: t => if isJsonWsC c then skipWs t else c :: t
  | [] => []

/-- ASCII decimal digit test. -/
def isDigitC (c : Char) : Bool := 48 ≤ c.toNat && c.toNat ≤ 57

/-- Hex digit value. -/
def hexVal (c : Char) : Option Nat :=
  if 48 ≤ c.toNat && c.toNat ≤ 57 then some (c.toNat - 48)
  else if 97 ≤ c.toNat && c.toNat ≤ 102 then some (c.toNat - 87)
  else if 65 ≤ c.toNat && c.toNat ≤ 70 then some (c.toNat - 55)
  else none

/-- Body of a JSON string literal after the opening quote, fuelled to
keep the recursion structural (each step consumes at least one input
character, so length + 1 fuel always suffices).  Returns the decoded
string and the remaining input. -/
def parseJStrF : Nat → List Char → List Char → Except String (String × List Char)
  | 0, _, _ => .error "Unterminated string"
  | fuel + 1, l, acc =>
    match l with
    | [] => .error "Unterminated string"
    | c :: t =>
      if c == Char.ofNat 34 then .ok (String.mk acc.reverse, t)
      else if c == Char.ofNat 92 then
        match t with
        | [] => .error "Unterminated string"
        | e :: t2 =>
          if e == Char.ofNat 34 then parseJStrF fuel t2 (Char.ofNat 34 :: acc)
          else if e == Char.ofNat 92 then parseJStrF fuel t2 (Char.ofNat 92 :: acc)
          else if e == Char.ofNat 47 then parseJStrF fuel t2 (Char.ofNat 47 :: acc)
          else if e == Char.ofNat 98 then parseJStrF fuel t2 (Char.ofNat 8 :: acc)
          else if e == Char.ofNat 102 then parseJStrF fuel t2 (Char.ofNat 12 :: acc)
          else if e == Char.ofNat 110 then parseJStrF fuel t2 (Char.ofNat 10 :: acc)
          else if e == Char.ofNat 114 then parseJStrF fuel t2 (Char.ofNat 13 :: acc)
          else if e == Char.ofNat 116 then parseJStrF fuel t2 (Char.ofNat 9 :: acc)
          else if e == Char.ofNat 117 then
            match t2 with
            | h1 :: h2 :: h3 :: h4 :: t3 =>
              match hexVal h1, hexVal h2, hexVal h3, hexVal h4 with
              | some a, some b, some c3, some d4 =>
                parseJStrF fuel t3 (Char.ofNat (a * 4096 + b * 256 + c3 * 16 + d4) :: acc)
              | _, _, _, _ => .error "Invalid uXXXX escape"
            | _ => .error "Invalid uXXXX escape"
          else .error "Invalid escape"
      else parseJStrF fuel t (c :: acc)

/-- Body of a JSON string literal, after the opening quote. -/
def parseJStr (l : List Char) (acc : List Char) : Except String (String × List Char) :=
  parseJStrF (l.length + 1) l acc

/-- Greedy run of decimal digits. -/
def parseDigits (l : List Char) (acc : Nat) : Nat × List Char :=
  match l with
  | c :: t => if isDigitC c then parseDigits t (acc * 10 + (c.toNat - 48)) else (acc, c :: t)
  | [] => (acc, [])

/-- Reject the float continuations of a numeric literal; the model covers
the integer fragment only. -/
def checkNoFloat (n : Int) (rest : List Char) : Except String (Int × List Char) :=
  match rest with
  | c :: _ =>
    if c == Char.ofNat 46 || c == Char.ofNat 101 || c == Char.ofNat 69 then
      .error "float literals are outside the modelled integer fragment"
    else .ok (n, rest)
  | [] => .ok (n, rest)

/-- A JSON numeric literal (integer fragment; leading zeros are rejected
as in the JSON grammar, because the digits after the zero are left in the
input and trip the surrounding grammar). -/
def parseNum (l : List Char) : Except String (Int × List Char) :=
  match l with
  | c :: t =>
    if c == Char.ofNat 45 then
      match t with
      | d :: t2 =>
        if d == Char.ofNat 48 then checkNoFloat 0 t2
        else if isDigitC d then
          match parseDigits t2 (d.toNat - 48) with
          | (n, rest) => checkNoFloat (-(n : Int)) rest
        else .error "Expecting value"
      | [] => .error "Expecting value"
    else if c == Char.ofNat 48 then checkNoFloat 0 t
    else if isDigitC c then
      match parseDigits t (c.toNat - 48) with
      | (n, rest) => checkNoFloat (n : Int) rest
    else .error "Expecting value"
  | [] => .error "Expecting value"

mutual

/-- A JSON value, fuelled recursive descent. -/
def parseValue : Nat → List Char → Except String (JsonValue × List Char)
  | 0, _ => .error "Expecting value"
  | fuel + 1, l =>
    match skipWs l with
    | [] => .error "Expecting value"
    | c :: t =>
      if c == Char.ofNat 34 then
        match parseJStr t [] with
        | .ok (s, rest) => .ok (.str s, rest)
        | .error e => .error e
      else if c == Char.ofNat 123 then parseObjBody fuel (skipWs t) []
      else if c == Char.ofNat 91 then parseArrBody fuel (skipWs t) []
      else if isPfx "null".data (c :: t) then .ok (.null, (c :: t).drop 4)
      else if isPfx "true".data (c :: t) then .ok (.bool true, (c :: t).drop 4)
      else if isPfx "false".data (c :: t) then .ok (.bool false, (c :: t).drop 5)
      else
        match parseNum (c :: t) with
        | .ok (n, rest) => .ok (.num n, rest)
        | .error e => .error e

/-- Elements of a JSON array, after the opening bracket (whitespace
already skipped on entry). -/
def parseArrBody : Nat → List Char → List JsonValue → Except String (JsonValue × List Char)
  | 0, _, _ => .error "Expecting value"
  | fuel + 1, l, acc =>
    match l with
    | [] => .error "Expecting value"
    | c :: t =>
      if c == Char.ofNat 93 && acc.isEmpty then .ok (.arr [], t)
      else
        match parseValue fuel (c :: t) with
        | .error e => .error e
        | .ok (v, rest) =>
          match skipWs rest with
          | [] => .error "Expecting comma delimiter"
          | c2 :: t2 =>
            if c2 == Char.ofNat 44 then parseArrBody fuel t2 (acc ++ [v])
            else if c2 == Char.ofNat 93 then .ok (.arr (acc ++ [v]), t2)
            else .error "Expecting comma delimiter"

/-- Members of a JSON object, after the opening brace (whitespace already
skipped on entry); duplicate keys resolve to the last value, as in
Python. -/
def parseObjBody : Nat → List Char → List (String × JsonValue) →
    Except String (JsonValue × List Char)
  | 0, _, _ => .error "Expecting value"
  | fuel + 1, l, acc =>
    match l with
    | [] => .error "Expecting property name enclosed in double quotes"
    | c :: t =>
      if c == Char.ofNat 125 && acc.isEmpty then .ok (.obj [], t)
      else if c == Char.ofNat 34 then
        match parseJStr t [] with
        | .error e => .error e
        | .ok (k, rest) =>
          match skipWs rest with
          | [] => .error "Expecting colon delimiter"
          | c2 :: t2 =>
            if c2 == Char.ofNat 58 then
              match parseValue fuel t2 with
              | .error e => .error e
              | .ok (v, rest2) =>
                match skipWs rest2 with
                | [] => .error "Expecting comma delimiter"
                | c3 :: t3 =>
                  if c3 == Char.ofNat 44 then parseObjBody fuel (skipWs t3) (objSet acc k v)
                  else if c3 == Char.ofNat 125 then .ok (.obj (objSet acc k v), t3)
                  else .error "Expecting comma delimiter"
            else .error "Expecting colon delimiter"
      else .error "Expecting property name enclosed in double quotes"

end

/-- json.loads: parse one value and require only whitespace to remain. -/
def json_loads (s : String) : Except String JsonValue :=
  match parseValue (s.length + 1) s.data with
  | .error e => .error e
  | .ok (v, rest) =>
    match skipWs rest with
    | [] => .ok v
    | _ => .error "Extra data"

/-! ### json.dumps on the error objects the analyzer builds -/

/-- json.dumps escaping of one character (default ensure_ascii). -/
def jsonEscapeChar (c : Char) : String :=
  if c == Char.ofNat 34 then "\\\""
  else if c == Char.ofNat 92 then "\\\\"
  else if c == Char.ofNat 10 then "\\n"
  else if c == Char.ofNat 13 then "\\r"
  else if c == Char.ofNat 9 then "\\t"
  else if c == Char.ofNat 8 then "\\b"
  else if c == Char.ofNat 12 then "\\f"
  else if c.toNat < 32 then "\\u" ++ hex4 c.toNat
  else if c.toNat < 127 then String.singleton c
  else if c.toNat < 65536 then "\\u" ++ hex4 c.toNat
  else
    "\\u" ++ hex4 (55296 + (c.toNat - 65536) / 1024) ++ "\\u" ++
      hex4 (56320 + (c.toNat - 65536) % 1024)

/-- json.dumps of a one-field dict carrying an error message, the only
shape the program serializes. -/
def jsonDumpsErr (msg : String) : String :=
  "\x7b\"error\": \"" ++ String.join (msg.data.map jsonEscapeChar) ++ "\"\x7d"

/-! ### analyze_with_gemini (main.py lines 81-128) -/

/-- A Gemini response object; accessing .text can itself raise. -/
structure GenResponse where
  text : Except String String

/-- The generate_content side of the SDK as an oracle keyed by model name
and prompt; .error e models a raised exception whose str() is e. -/
abbrev GenOracle := String → String → Except String GenResponse

/-- The genai.list_models() oracle: (name, supported_generation_methods)
pairs, or a raised exception. -/
abbrev ListModelsOracle := Except String (List (String × List String))

/-- Line 82. -/
def target_model_name : String := "gemini-2.5-flash"

/-- Line 83. -/
def fallback_model_name : String := "gemini-2.0-flash"

/-- The prompt f-string of lines 85-99 (doubled braces in the source are
literal braces; the issue text is interpolated before the final line). -/
def mkPrompt (issue_text : String) : String :=
  "\n    You are an expert Engineering Manager. Analyze the following GitHub issue and return ONLY a JSON object.\n    \n    Format requirements:\n    \x7b\n        \"summary\": \"One sentence summary\",\n        \"type\": \"bug\" | \"feature_request\" | \"documentation\" | \"question\" | \"other\",\n        \"priority_score\": 1-5 (int),\n        \"suggested_labels\": [\"label1\", \"label2\"],\n        \"potential_impact\": \"Short sentence on user impact\"\n    \x7d\n\n    Issue Data:\n    " ++ issue_text ++ "\n    "

/-- Lines 113-119: names of models supporting generateContent; a failure
of list_models is swallowed, leaving the list empty. -/
def availableModels (lm : ListModelsOracle) : List String :=
  match lm with
  | .ok ms => (ms.filter (fun m => m.2.contains "generateContent")).map (fun m => m.1)
  | .error _ => []

/-- The f-string of lines 120-122 (the model list is rendered by str()). -/
def doubleFailureMsg (lm : ListModelsOracle) (fallback_e : String) : String :=
  "Model " ++ target_model_name ++ " failed. Fallback " ++ fallback_model_name ++
    " also failed. Available models: " ++
    pyStr (.arr ((availableModels lm).map JsonValue.str)) ++ ". Error: " ++ fallback_e

/-- Line 125: remove every occurrence of the fence markers, then strip
surrounding whitespace. -/
def cleanResponseText (t : String) : String :=
  pyStrip (pyReplace (pyReplace t "```json" "") "```" "")

/-- Lines 124-128: extract response.text and clean it; if the extraction
raises, return a JSON error object instead. -/
def finishResponse (r : GenResponse) : String :=
  match r.text with
  | .ok t => cleanResponseText t
  | .error e => jsonDumpsErr ("AI Parsing failed: " ++ e)

/-- analyze_with_gemini (lines 81-128): the returned text together with
the trace of generate_content invocations (model name, prompt). -/
def analyze_with_gemini (gen : GenOracle) (lm : ListModelsOracle) (issue_text : String) :
    String × List (String × String) :=
  let prompt := mkPrompt issue_text
  match gen target_model_name prompt with
  | .ok response => (finishResponse response, [(target_model_name, prompt)])
  | .error _ =>
    match gen fallback_model_name prompt with
    | .ok response =>
      (finishResponse response, [(target_model_name, prompt), (fallback_model_name, prompt)])
    | .error fallback_e =>
      (jsonDumpsErr (doubleFailureMsg lm fallback_e),
        [(target_model_name, prompt), (fallback_model_name, prompt)])

/-! ### The result normalizer inside render_dashboard (lines 142-157) -/

/-- The safe default analysis dict of lines 142-148. -/
def safe_analysis : PyDict :=
  [(.str "summary", .str "AI could not analyze this issue."),
   (.str "type", .str "other"),
   (.str "priority_score", .num 0),
   (.str "suggested_labels", .arr [.str "error"]),
   (.str "potential_impact", .str "Unknown")]

/-- The try block of lines 150-157: parse the analyzer output, honour an
"error" field, otherwise dict.update the safe default; any exception
raised inside the block is caught and the summary is written into the
dict as it stands at the raise.  Parsing, the membership test and the
subscript leave the dict pristine, but a dict.update that fails partway
keeps the insertions it already made, as in CPython. -/
def normalizeAnalysis (ai_response_json : String) : PyDict :=
  match json_loads ai_response_json with
  | .error e =>
    dictSet safe_analysis (.str "summary") (.str ("Error parsing AI response: " ++ e))
  | .ok parsed =>
    match pyInStr "error" parsed with
    | .error e =>
      dictSet safe_analysis (.str "summary") (.str ("Error parsing AI response: " ++ e))
    | .ok true =>
      match pyGetItemStr parsed "error" with
      | .error e =>
        dictSet safe_analysis (.str "summary") (.str ("Error parsing AI response: " ++ e))
      | .ok v => dictSet safe_analysis (.str "summary") (.str ("AI Error: " ++ pyStr v))
    | .ok false =>
      match pyUpdate safe_analysis parsed with
      | (d, none) => d
      | (d, some e) => dictSet d (.str "summary") (.str ("Error parsing AI response: " ++ e))

/-! ### fetch_github_data (main.py lines 32-79) -/

/-- The outcome of a requests.get call that returned: status code and the
outcome of decoding the body with .json(). -/
structure HttpResp where
  status : Int
  jsonBody : Except String JsonValue

/-- The HTTP layer as an oracle from URL to outcome; .error e models a
raised network exception whose str() is e. -/
abbrev HttpOracle := String → Except String HttpResp

/-- Line 45. -/
def issueUrl (owner repo : String) (issue_number : Int) : String :=
  "https://api.github.com/repos/" ++ owner ++ "/" ++ repo ++ "/issues/" ++
    toString issue_number

/-- Line 49. -/
def commentsUrl (owner repo : String) (issue_number : Int) : String :=
  "https://api.github.com/repos/" ++ owner ++ "/" ++ repo ++ "/issues/" ++
    toString issue_number ++ "/comments"

/-- Line 54. -/
def issuesListUrl (owner repo : String) (page : Int) : String :=
  "https://api.github.com/repos/" ++ owner ++ "/" ++ repo ++
    "/issues?per_page=30&state=all&sort=updated&page=" ++ toString page

/-- repo_url.rstrip("/"): drop every trailing slash. -/
def pyRstripSlash (s : String) : String :=
  String.mk ((s.data.reverse.dropWhile (fun c => c == Char.ofNat 47)).reverse)

/-- Accumulating worker of the single-character split. -/
def splitCharGo (sep : Char) : List Char → List Char → List String
  | [], acc => [String.mk acc.reverse]
  | c :: t, acc =>
    if c == sep then String.mk acc.reverse :: splitCharGo sep t [] else splitCharGo sep t (c :: acc)

/-- Python str.split(sep) for a one-character separator: every occurrence
splits, empty pieces are kept, and the empty string yields [""]. -/
def pySplitChar (s : String) (sep : Char) : List String := splitCharGo sep s.data []

/-- Lines 37-38: owner, repo = parts[-2], parts[-1] of the split URL; a
split with fewer than two parts raises IndexError. -/
def parseOwnerRepo (repo_url : String) : Except String (String × String) :=
  match (pySplitChar (pyRstripSlash repo_url) (Char.ofNat 47)).reverse with
  | a :: b :: _ => .ok (b, a)
  | _ => .error "list index out of range"

/-- Python dict.get(k) on a parsed JSON value (AttributeError on
non-dicts; a missing key and a JSON null both come back as None). -/
def pyGetAttr (v : JsonValue) (k : String) : Except String (Option JsonValue) :=
  match v with
  | .obj kvs => .ok (objFind kvs k)
  | _ => .error "AttributeError: object has no attribute get"

/-- Python iteration (for x in v) over a parsed JSON value: lists yield
elements, dicts yield keys, strings yield characters. -/
def pyIterate (v : JsonValue) : Except String (List JsonValue) :=
  match v with
  | .arr xs => .ok xs
  | .obj kvs => .ok (kvs.map (fun kv => JsonValue.str kv.1))
  | .str s => .ok (s.data.map (fun c => JsonValue.str (String.singleton c)))
  | _ => .error "TypeError: object is not iterable"

/-- The successful fetch payload of lines 69-76. -/
structure FetchData where
  owner : String
  repo : String
  issue_title : JsonValue
  full_text : String
  issues_list : JsonValue
  current_page : Int

/-- The try block of fetch_github_data (lines 36-76).  The early
return (None, error-with-status) of lines 57-58 is modelled as a throw:
like a raised exception it surfaces as (None, message) and skips the rest
of the block, including the .json() decoding. -/
def fetchBody (http : HttpOracle) (repo_url : String) (issue_number page : Int) :
    Except String FetchData := do
  let (owner, repo) ← parseOwnerRepo repo_url
  let issue_res ← http (issueUrl owner repo issue_number)
  let comments_res ← http (commentsUrl owner repo issue_number)
  let issues_list_res ← http (issuesListUrl owner repo page)
  if issue_res.status ≠ 200 then
    throw ("Error fetching issue: " ++ toString issue_res.status)
  else
    let issue_data ← issue_res.jsonBody
    let comments_data ←
      if comments_res.status == 200 then comments_res.jsonBody else pure (.arr [])
    let issues_list_data ←
      if issues_list_res.status == 200 then issues_list_res.jsonBody else pure (.arr [])
    let titleOpt ← pyGetAttr issue_data "title"
    let bodyOpt ← pyGetAttr issue_data "body"
    let comments ← pyIterate comments_data
    let full_text ← comments.foldlM (fun acc c => do
        let b ← pyGetAttr c "body"
        pure (acc ++ "Comment: " ++ pyStr (b.getD .null) ++ "\n"))
      ("Title: " ++ pyStr (titleOpt.getD .null) ++ "\n\nBody:\n" ++
        pyStr (bodyOpt.getD .null) ++ "\n\n")
    return ⟨owner, repo, titleOpt.getD .null, full_text, issues_list_data, page⟩

/-- fetch_github_data (lines 32-79): the (data, error) pair the function
returns; every exception is caught and stringified (line 78-79). -/
def fetch_github_data (http : HttpOracle) (repo_url : String) (issue_number page : Int) :
    Option FetchData × Option String :=
  match fetchBody http repo_url issue_number page with
  | .ok d => (some d, none)
  | .error e => (none, some e)

/-! ### render_dashboard (main.py lines 132-169) -/

/-- The template context handed to dashboard.html (lines 160-169),
without the request object. -/
structure DashboardVM where
  repo_url : String
  repo_name : String
  issue_number : Int
  issue_title : JsonValue
  issues_list : JsonValue
  analysis : PyDict
  page : Int

/-- The rendered view: the index template with an error, or the
dashboard. -/
inductive RenderView where
  | errorView : String → RenderView
  | dashboard : DashboardVM → RenderView

/-- Python truthiness of the fetch error slot (None and "" are falsy). -/
def pyTruthy (e : Option String) : Bool :=
  match e with
  | none => false
  | some s => s.length != 0

/-- render_dashboard (lines 132-169): the rendered view (or an uncaught
exception), together with the number of analyze_with_gemini calls made.
Proceeding past a falsy error with no data raises an uncaught TypeError
at data["full_text"]. -/
def render_dashboard (http : HttpOracle) (gen : GenOracle) (lm : ListModelsOracle)
    (repo_url : String) (issue_number page : Int) : Except String RenderView × Nat :=
  match fetch_github_data http repo_url issue_number page with
  | (dataOpt, err) =>
    if pyTruthy err then
      (.ok (.errorView ("Could not find issue: " ++ err.getD "")), 0)
    else
      match dataOpt with
      | none => (.error "TypeError: NoneType object is not subscriptable", 0)
      | some data =>
        let ai := analyze_with_gemini gen lm data.full_text
        (.ok (.dashboard ⟨repo_url, data.owner ++ "/" ++ data.repo, issue_number,
          data.issue_title, data.issues_list, normalizeAnalysis ai.1, page⟩), 1)

/-! ### Sample oracles used by concrete witnesses -/

/-- Is the parsed value a JSON object (a Python dict)? -/
def isObjV : JsonValue → Bool
  | .obj _ => true
  | _ => false

/-- An HTTP oracle where every request succeeds: the issue has a title
and a body, comments and the issue list are empty. -/
def httpOkSample : HttpOracle := fun url =>
  if url = issueUrl "o" "r" 1 then
    .ok ⟨200, .ok (.obj [("title", .str "T"), ("body", .str "B")])⟩
  else .ok ⟨200, .ok (.arr [])⟩

/-- The fetch payload httpOkSample produces for repo o/r, issue 1. -/
def sampleFetchData : FetchData := ⟨"o", "r", .str "T", "Title: T\n\nBody:\nB\n\n", .arr [], 1⟩

/-- A model oracle whose every invocation raises. -/
def genDown : GenOracle := fun _ _ => .error "down"

/-- A list_models oracle that raises. -/
def lmDown : ListModelsOracle := .error "down"

/-- An oracle whose primary model raises and whose fallback succeeds. -/
def genPrimaryDown : GenOracle := fun m _ =>
  if m = target_model_name then .error "down" else .ok ⟨.ok "ok"⟩

/-- A model oracle that always answers with the text "hello". -/
def genHello : GenOracle := fun _ _ => .ok ⟨.ok "hello"⟩

/-- An oracle where the issue-detail request reports status 404 but the
two best-effort requests raise. -/
def httpMask : HttpOracle := fun url =>
  if url = issueUrl "o" "r" 1 then .ok ⟨404, .ok .null⟩ else .error "boom"

/-- An oracle where the issue-detail request reports 404 and the two
best-effort requests succeed. -/
def http404 : HttpOracle := fun url =>
  if url = issueUrl "o" "r" 1 then .ok ⟨404, .ok .null⟩ else .ok ⟨200, .ok (.arr [])⟩

/-- The newline character. -/
def nlC : Char := Char.ofNat 10

/-- The backtick character. -/
def tickC : Char := Char.ofNat 96

/-- The data of the fence marker "```". -/
def fence3 : List Char := [tickC, tickC, tickC]

/-- The data of "json". -/
def jsonTail : List Char := [Char.ofNat 106, Char.ofNat 115, Char.ofNat 111, Char.ofNat 110]

/-- The data of the fence marker "```json". -/
def fence7 : List Char := fence3 ++ jsonTail

/-! ### Dictionary lemmas -/

theorem dictLookup_set_self (d : PyDict) (a : String) (v : JsonValue) :
    dictLookup (dictSet d (.str a) v) (.str a) = some v := by
  induction d with
  | nil => simp [dictSet, dictLookup, keyEq]
  | cons kv rest ih =>
    obtain ⟨k0, v0⟩ := kv
    by_cases h : keyEq k0 (.str a) = true
    · simp [dictSet, h, dictLookup]
    · simp [dictSet, h, dictLookup, ih]

/-- Only a string key is Python-equal to a string key. -/
theorem keyEq_str_elim : ∀ (k0 : JsonValue) (a : String), keyEq k0 (.str a) = true → k0 = .str a
  | .str a0, a, h => by simp [keyEq] at h; rw [h]
  | .null, _, h => by simp [keyEq] at h
  | .bool b, _, h => by simp [keyEq] at h
  | .num n, _, h => by simp [keyEq] at h
  | .arr xs, _, h => by simp [keyEq] at h
  | .obj kvs, _, h => by simp [keyEq] at h

theorem dictLookup_set_ne (d : PyDict) (a b : String) (v : JsonValue)
    (h : (a == b) = false) :
    dictLookup (dictSet d (.str a) v) (.str b) = dictLookup d (.str b) := by
  induction d with
  | nil => simp [dictSet, dictLookup, keyEq, h]
  | cons kv rest ih =>
    obtain ⟨k0, v0⟩ := kv
    by_cases h0 : keyEq k0 (.str a) = true
    · have hke := keyEq_str_elim k0 a h0
      subst hke
      simp [dictSet, h0, dictLookup, keyEq, h]
    · simp [dictSet, h0, dictLookup, ih]

/-- The value a left fold of dict assignments leaves under a key: the
last value the items list carries for it, else whatever the base dict
held. -/
theorem dictLookup_updFold (kvs : List (String × JsonValue)) (d : PyDict) (k : String) :
    dictLookup (kvs.foldl (fun acc kv => dictSet acc (.str kv.1) kv.2) d) (.str k) =
      match objLookup kvs k with
      | some v => some v
      | none => dictLookup d (.str k) := by
  induction kvs generalizing d with
  | nil => simp [objLookup]
  | cons kv rest ih =>
    obtain ⟨k0, v0⟩ := kv
    simp only [List.foldl]
    rw [ih]
    cases hrest : objLookup rest k with
    | some v => simp [objLookup, hrest]
    | none =>
      by_cases hk : (k0 == k) = true
      · have hke : k0 = k := by simpa using hk
        subst hke
        simp [objLookup, hrest, hk, dictLookup_set_self]
      · have hkf : (k0 == k) = false := by simpa using hk
        simp [objLookup, hrest, hkf, dictLookup_set_ne _ _ _ _ hkf]

theorem any_key_of_objFind (kvs : List (String × JsonValue)) (k : String) (v : JsonValue)
    (h : objFind kvs k = some v) : (kvs.any (fun kv => kv.1 == k)) = true := by
  induction kvs with
  | nil => simp [objFind] at h
  | cons kv rest ih =>
    obtain ⟨k0, v0⟩ := kv
    by_cases hk : (k0 == k) = true
    · simp [List.any, hk]
    · simp only [objFind, hk, if_false] at h
      simp [List.any, hk, ih h]

/-! ### Reduction lemmas for the normalizer branches -/

/-- Parsed object without an "error" key: the safe default is folded
through dict.update with the object's items. -/
theorem normalizeAnalysis_obj_noerr (s : String) (kvs : List (String × JsonValue))
    (hp : json_loads s = .ok (.obj kvs))
    (hno : (kvs.any (fun kv => kv.1 == "error")) = false) :
    normalizeAnalysis s =
      kvs.foldl (fun acc kv => dictSet acc (.str kv.1) kv.2) safe_analysis := by
  simp [normalizeAnalysis, hp, pyInStr, hno, pyUpdate]

/-- Parsed object with an "error" key: only the summary is rewritten. -/
theorem normalizeAnalysis_obj_err (s : String) (kvs : List (String × JsonValue))
    (v : JsonValue) (hp : json_loads s = .ok (.obj kvs))
    (hf : objFind kvs "error" = some v) :
    normalizeAnalysis s =
      dictSet safe_analysis (.str "summary") (.str ("AI Error: " ++ pyStr v)) := by
  have hany := any_key_of_objFind kvs "error" v hf
  simp [normalizeAnalysis, hp, pyInStr, hany, pyGetItemStr, hf]

/-- Parse failure: only the summary is rewritten, with the parse
exception text embedded. -/
theorem normalizeAnalysis_parse_error (s e : String) (hp : json_loads s = .error e) :
    normalizeAnalysis s =
      dictSet safe_analysis (.str "summary") (.str ("Error parsing AI response: " ++ e)) := by
  simp [normalizeAnalysis, hp]

/-! ### Claim C3 -/

/-- C3 counterexample: the claim says keys outside the fixed schema are
ignored silently and the assembled record contains only the schema's
fields, but dict.update inserts the unknown key "frobnicate" into the
record. -/
theorem claim3_counterexample :
    normalizeAnalysis "\x7b\"type\": \"bug\", \"frobnicate\": 1\x7d" =
      [(.str "summary", .str "AI could not analyze this issue."),
       (.str "type", .str "bug"),
       (.str "priority_score", .num 0),
       (.str "suggested_labels", .arr [.str "error"]),
       (.str "potential_impact", .str "Unknown"),
       (.str "frobnicate", .num 1)] := by rfl

/-- C3 (amended): for analyzer output parsing to a JSON object without an
"error" key, every key present in the object (schema field or not) ends
up in the assembled record with the parsed value, and every key the
object misses keeps SafeDefault's value; unknown keys are inserted into
the record rather than dropped. -/
theorem claim3_main (s : String) (kvs : List (String × JsonValue))
    (hp : json_loads s = .ok (.obj kvs))
    (hno : (kvs.any (fun kv => kv.1 == "error")) = false) :
    (∀ k v, objLookup kvs k = some v →
        dictLookup (normalizeAnalysis s) (.str k) = some v) ∧
    (∀ k, objLookup kvs k = none →
        dictLookup (normalizeAnalysis s) (.str k) = dictLookup safe_analysis (.str k)) := by
  rw [normalizeAnalysis_obj_noerr s kvs hp hno]
  constructor
  · intro k v h
    rw [dictLookup_updFold, h]
  · intro k h
    rw [dictLookup_updFold, h]

/-- C3 witness: the spec's own example.  Analyzer output with only type
and priority_score yields SafeDefault with exactly those two fields
changed. -/
theorem claim3_witness :
    dictLookup (normalizeAnalysis "\x7b\"type\": \"bug\", \"priority_score\": 4\x7d")
        (.str "type") = some (.str "bug") ∧
    dictLookup (normalizeAnalysis "\x7b\"type\": \"bug\", \"priority_score\": 4\x7d")
        (.str "priority_score") = some (.num 4) ∧
    dictLookup (normalizeAnalysis "\x7b\"type\": \"bug\", \"priority_score\": 4\x7d")
        (.str "summary") = dictLookup safe_analysis (.str "summary") ∧
    dictLookup (normalizeAnalysis "\x7b\"type\": \"bug\", \"priority_score\": 4\x7d")
        (.str "suggested_labels") = dictLookup safe_analysis (.str "suggested_labels") ∧
    dictLookup (normalizeAnalysis "\x7b\"type\": \"bug\", \"priority_score\": 4\x7d")
        (.str "potential_impact") = dictLookup safe_analysis (.str "potential_impact") := by
  have h := claim3_main "\x7b\"type\": \"bug\", \"priority_score\": 4\x7d"
    [("type", .str "bug"), ("priority_score", .num 4)] rfl rfl
  exact ⟨h.1 "type" _ rfl, h.1 "priority_score" _ rfl, h.2 "summary" rfl,
    h.2 "suggested_labels" rfl, h.2 "potential_impact" rfl⟩

/-! ### Claim C4 -/

/-- C4: analyzer output parsing to an object with an "error" field of
value v produces SafeDefault with only the summary rewritten to
"AI Error: " followed by v (rendered by str(), the identity on strings);
type stays "other" and the remaining fields keep their defaults. -/
theorem claim4_main (s : String) (kvs : List (String × JsonValue)) (v : JsonValue)
    (hp : json_loads s = .ok (.obj kvs)) (hf : objFind kvs "error" = some v) :
    normalizeAnalysis s =
      dictSet safe_analysis (.str "summary") (.str ("AI Error: " ++ pyStr v)) ∧
    dictLookup (normalizeAnalysis s) (.str "summary") =
      some (.str ("AI Error: " ++ pyStr v)) ∧
    dictLookup (normalizeAnalysis s) (.str "type") = some (.str "other") ∧
    dictLookup (normalizeAnalysis s) (.str "priority_score") = some (.num 0) ∧
    dictLookup (normalizeAnalysis s) (.str "suggested_labels") =
      some (.arr [.str "error"]) ∧
    dictLookup (normalizeAnalysis s) (.str "potential_impact") = some (.str "Unknown") := by
  have h := normalizeAnalysis_obj_err s kvs v hp hf
  refine ⟨h, ?_, ?_, ?_, ?_, ?_⟩ <;> rw [h] <;> rfl

/-- C4 witness: the spec's example output with error "quota exceeded". -/
theorem claim4_witness :
    normalizeAnalysis "\x7b\"error\": \"quota exceeded\"\x7d" =
      dictSet safe_analysis (.str "summary") (.str "AI Error: quota exceeded") ∧
    dictLookup (normalizeAnalysis "\x7b\"error\": \"quota exceeded\"\x7d") (.str "type") =
      some (.str "other") :=
  ⟨(claim4_main "\x7b\"error\": \"quota exceeded\"\x7d" [("error", .str "quota exceeded")]
      (.str "quota exceeded") rfl rfl).1,
   (claim4_main "\x7b\"error\": \"quota exceeded\"\x7d" [("error", .str "quota exceeded")]
      (.str "quota exceeded") rfl rfl).2.2.1⟩

/-! ### Claim C5 -/

/-- C5: analyzer output that is not valid JSON degrades to SafeDefault
with only the summary rewritten to embed the parse exception text, and a
request whose fetch succeeded still renders the dashboard whatever the
analyzer produced (assembly never raises). -/
theorem claim5_main (s e : String) (hp : json_loads s = .error e) :
    normalizeAnalysis s =
      dictSet safe_analysis (.str "summary") (.str ("Error parsing AI response: " ++ e)) ∧
    ∀ (http : HttpOracle) (gen : GenOracle) (lm : ListModelsOracle) (url : String)
      (n p : Int) (d : FetchData), fetch_github_data http url n p = (some d, none) →
      (render_dashboard http gen lm url n p).1 =
        .ok (.dashboard ⟨url, d.owner ++ "/" ++ d.repo, n, d.issue_title, d.issues_list,
          normalizeAnalysis (analyze_with_gemini gen lm d.full_text).1, p⟩) := by
  refine ⟨normalizeAnalysis_parse_error s e hp, ?_⟩
  intro http gen lm url n p d hf
  simp [render_dashboard, hf, pyTruthy]

/-- C5 witness: malformed output "not json" at a concrete fetch whose
requests all succeed; the dashboard still renders. -/
theorem claim5_witness :
    normalizeAnalysis "not json" =
      dictSet safe_analysis (.str "summary")
        (.str ("Error parsing AI response: " ++ "Expecting value")) ∧
    (render_dashboard httpOkSample genDown lmDown "https://github.com/o/r" 1 1).1 =
      .ok (.dashboard ⟨"https://github.com/o/r", "o" ++ "/" ++ "r", 1, .str "T", .arr [],
        normalizeAnalysis (analyze_with_gemini genDown lmDown "Title: T\n\nBody:\nB\n\n").1, 1⟩) :=
  ⟨(claim5_main "not json" "Expecting value" rfl).1,
   (claim5_main "not json" "Expecting value" rfl).2 httpOkSample genDown lmDown
     "https://github.com/o/r" 1 1 sampleFetchData rfl⟩

/-! ### Claim C8 -/

/-- C8 counterexample: the claim says priorityScore always lies in [0,5],
but analyzer output supplying 99 passes through unvalidated. -/
theorem claim8_counterexample :
    dictLookup (normalizeAnalysis "\x7b\"priority_score\": 99\x7d") (.str "priority_score") =
      some (.num 99) ∧ ¬((99 : Int) ≤ 5) := ⟨rfl, by norm_num⟩

/-- C8 (amended): the code never validates the score.  The assembled
priority_score is 0 on every degraded path (parse failure or an "error"
field) and when the parsed object omits priority_score, and otherwise it
is exactly the parsed value, whatever it is; it lies in [0,5] only when
the analyzer happens to supply such a value or none at all. -/
theorem claim8_main (s : String) :
    (∀ kvs, json_loads s = .ok (.obj kvs) →
      (kvs.any (fun kv => kv.1 == "error")) = false →
      dictLookup (normalizeAnalysis s) (.str "priority_score") =
        some ((objLookup kvs "priority_score").getD (.num 0))) ∧
    (∀ kvs v, json_loads s = .ok (.obj kvs) → objFind kvs "error" = some v →
      dictLookup (normalizeAnalysis s) (.str "priority_score") = some (.num 0)) ∧
    (∀ e, json_loads s = .error e →
      dictLookup (normalizeAnalysis s) (.str "priority_score") = some (.num 0)) := by
  refine ⟨?_, ?_, ?_⟩
  · intro kvs hp hno
    rw [normalizeAnalysis_obj_noerr s kvs hp hno, dictLookup_updFold]
    cases h : objLookup kvs "priority_score" with
    | none =>
      simp only [h]
      rfl
    | some v => simp [h]
  · intro kvs v hp hf
    rw [normalizeAnalysis_obj_err s kvs v hp hf]
    rfl
  · intro e hp
    rw [normalizeAnalysis_parse_error s e hp]
    rfl

/-- C8 witness: an in-range score is taken verbatim. -/
theorem claim8_witness :
    dictLookup (normalizeAnalysis "\x7b\"priority_score\": 4\x7d") (.str "priority_score") =
      some (.num 4) :=
  (claim8_main "\x7b\"priority_score\": 4\x7d").1 [("priority_score", .num 4)] rfl rfl

/-! ### Claim C10 -/

/-- C10 counterexample: the claim says a parsed non-object makes the
merge fail and the summary carry an error message, but the empty JSON
array is a valid (empty) dict.update sequence: the merge succeeds and the
result is exactly SafeDefault, its summary untouched. -/
theorem claim10_counterexample :
    normalizeAnalysis "[]" = safe_analysis ∧
    dictLookup (normalizeAnalysis "[]") (.str "summary") =
      some (.str "AI could not analyze this issue.") := ⟨rfl, rfl⟩

/-- C10 (amended): assembly never raises on analyzer output parsing to a
non-object value.  Either the failure happens before the merge (the
membership test or the subscript raises a TypeError) and the summary is
written onto a pristine SafeDefault; or dict.update fails partway and the
summary is written onto the partially merged dict, the insertions made
before the failing element kept, as in CPython; or the value is a valid
update sequence without triggering the error branch (e.g. an empty array
or a list of key-value pairs) and it merges silently, with no error
message set. -/
theorem claim10_main (s : String) (v : JsonValue) (hp : json_loads s = .ok v)
    (hno : isObjV v = false) :
    (∃ m, normalizeAnalysis s =
        dictSet safe_analysis (.str "summary") (.str ("Error parsing AI response: " ++ m))) ∨
    (∃ d m, pyUpdate safe_analysis v = (d, some m) ∧
        normalizeAnalysis s =
          dictSet d (.str "summary") (.str ("Error parsing AI response: " ++ m))) ∨
    (∃ d, pyUpdate safe_analysis v = (d, none) ∧ normalizeAnalysis s = d) := by
  cases v with
  | obj kvs => simp [isObjV] at hno
  | null =>
    exact Or.inl ⟨"TypeError: argument of type is not iterable",
      by simp [normalizeAnalysis, hp, pyInStr]⟩
  | bool b =>
    exact Or.inl ⟨"TypeError: argument of type is not iterable",
      by simp [normalizeAnalysis, hp, pyInStr]⟩
  | num n =>
    exact Or.inl ⟨"TypeError: argument of type is not iterable",
      by simp [normalizeAnalysis, hp, pyInStr]⟩
  | str s0 =>
    by_cases hm : hasSub s0.data "error".data = true
    · exact Or.inl ⟨"TypeError: string indices must be integers",
        by simp [normalizeAnalysis, hp, pyInStr, hm, pyGetItemStr]⟩
    · have hm0 : hasSub s0.data "error".data = false := by simpa using hm
      cases hu : pyUpdate safe_analysis (.str s0) with
      | mk d me =>
        cases me with
        | none =>
          exact Or.inr (Or.inr ⟨d, rfl,
            by simp [normalizeAnalysis, hp, pyInStr, hm0, hu]⟩)
        | some m =>
          exact Or.inr (Or.inl ⟨d, m, rfl,
            by simp [normalizeAnalysis, hp, pyInStr, hm0, hu]⟩)
  | arr xs =>
    by_cases hm :
        (xs.any (fun x => match x with | .str s1 => s1 == "error" | _ => false)) = true
    · exact Or.inl ⟨"TypeError: list indices must be integers or slices, not str",
        by simp [normalizeAnalysis, hp, pyInStr, hm, pyGetItemStr]⟩
    · have hm0 :
          (xs.any (fun x => match x with | .str s1 => s1 == "error" | _ => false)) = false := by
        simpa using hm
      cases hu : pyUpdate safe_analysis (.arr xs) with
      | mk d me =>
        cases me with
        | none =>
          exact Or.inr (Or.inr ⟨d, rfl,
            by simp [normalizeAnalysis, hp, pyInStr, hm0, hu]⟩)
        | some m =>
          exact Or.inr (Or.inl ⟨d, m, rfl,
            by simp [normalizeAnalysis, hp, pyInStr, hm0, hu]⟩)

/-- C10 witness: an update sequence whose second element fails partway.
The first key-value pair is already merged when the exception is raised,
so the program keeps type = "x" alongside the error summary, exactly as
CPython leaves the partially mutated dict. -/
theorem claim10_witness :
    normalizeAnalysis "[[\"type\", \"x\"], 5]" =
      dictSet (dictSet safe_analysis (.str "type") (.str "x")) (.str "summary")
        (.str ("Error parsing AI response: " ++
          "TypeError: cannot convert dictionary update sequence element to a sequence")) ∧
    ((∃ m, normalizeAnalysis "[[\"type\", \"x\"], 5]" =
        dictSet safe_analysis (.str "summary") (.str ("Error parsing AI response: " ++ m))) ∨
    (∃ d m, pyUpdate safe_analysis (.arr [.arr [.str "type", .str "x"], .num 5]) =
          (d, some m) ∧
        normalizeAnalysis "[[\"type\", \"x\"], 5]" =
          dictSet d (.str "summary") (.str ("Error parsing AI response: " ++ m))) ∨
    (∃ d, pyUpdate safe_analysis (.arr [.arr [.str "type", .str "x"], .num 5]) = (d, none) ∧
        normalizeAnalysis "[[\"type\", \"x\"], 5]" = d)) :=
  ⟨rfl, claim10_main "[[\"type\", \"x\"], 5]"
      (.arr [.arr [.str "type", .str "x"], .num 5]) rfl rfl⟩

/-! ### Claim C9 -/

/-- C9: fetch never propagates a raw exception: for every behaviour of
the HTTP layer (including raised exceptions, modelled as .error) it
returns a (result, error) pair with exactly one side populated. -/
theorem claim9_main (http : HttpOracle) (repo_url : String) (issue_number page : Int) :
    ((fetch_github_data http repo_url issue_number page).1.isSome = true ∧
      (fetch_github_data http repo_url issue_number page).2 = none) ∨
    ((fetch_github_data http repo_url issue_number page).1 = none ∧
      (fetch_github_data http repo_url issue_number page).2.isSome = true) := by
  cases h : fetchBody http repo_url issue_number page with
  | ok d => exact Or.inl ⟨by simp [fetch_github_data, h], by simp [fetch_github_data, h]⟩
  | error e => exact Or.inr ⟨by simp [fetch_github_data, h], by simp [fetch_github_data, h]⟩

/-! ### Claim C6 -/

/-- C6: if the primary model invocation raises, the fallback model (a
distinct identifier) is invoked exactly once and with the identical
prompt; if that fallback invocation succeeds, its response text is the
one the analyzer's output is produced from. -/
theorem claim6_main (gen : GenOracle) (lm : ListModelsOracle) (issue_text e : String)
    (hfail : gen target_model_name (mkPrompt issue_text) = .error e) :
    (analyze_with_gemini gen lm issue_text).2 =
      [(target_model_name, mkPrompt issue_text), (fallback_model_name, mkPrompt issue_text)] ∧
    target_model_name ≠ fallback_model_name ∧
    ∀ r : GenResponse, gen fallback_model_name (mkPrompt issue_text) = .ok r →
      (analyze_with_gemini gen lm issue_text).1 = finishResponse r := by
  refine ⟨?_, by decide, ?_⟩
  · cases hf : gen fallback_model_name (mkPrompt issue_text) <;>
      simp [analyze_with_gemini, hfail, hf]
  · intro r hr
    simp [analyze_with_gemini, hfail, hr]

/-- C6 witness: a failing primary with a succeeding fallback, at a
concrete issue text. -/
theorem claim6_witness :
    (analyze_with_gemini genPrimaryDown lmDown "x").2 =
      [(target_model_name, mkPrompt "x"), (fallback_model_name, mkPrompt "x")] ∧
    (analyze_with_gemini genPrimaryDown lmDown "x").1 =
      finishResponse ⟨.ok "ok"⟩ :=
  ⟨(claim6_main genPrimaryDown lmDown "x" "down" rfl).1,
   (claim6_main genPrimaryDown lmDown "x" "down" rfl).2.2 ⟨.ok "ok"⟩ rfl⟩

/-! ### Claim C1 -/

/-- C1 counterexample: the claim says the analyzer's return value is
always valid JSON text, but a successful model response "hello" is
returned as-is and does not parse. -/
theorem claim1_counterexample :
    (analyze_with_gemini genHello lmDown "x").1 = "hello" ∧
    json_loads ((analyze_with_gemini genHello lmDown "x").1) = .error "Expecting value" :=
  ⟨rfl, rfl⟩

/-- C1 (amended): the analyzer is total (never raises) and always returns
a string, but that string is only guaranteed to be JSON on the failure
paths; on a successful invocation it is whatever finishResponse makes of
the response (the fence-stripped response text, or a JSON error object
when the text cannot be extracted). -/
theorem claim1_main (gen : GenOracle) (lm : ListModelsOracle) (t : String) :
    (∃ r, gen target_model_name (mkPrompt t) = .ok r ∧
        (analyze_with_gemini gen lm t).1 = finishResponse r) ∨
    (∃ e r, gen target_model_name (mkPrompt t) = .error e ∧
        gen fallback_model_name (mkPrompt t) = .ok r ∧
        (analyze_with_gemini gen lm t).1 = finishResponse r) ∨
    (∃ e fe, gen target_model_name (mkPrompt t) = .error e ∧
        gen fallback_model_name (mkPrompt t) = .error fe ∧
        (analyze_with_gemini gen lm t).1 = jsonDumpsErr (doubleFailureMsg lm fe)) := by
  cases h1 : gen target_model_name (mkPrompt t) with
  | ok r => exact Or.inl ⟨r, rfl, by simp [analyze_with_gemini, h1]⟩
  | error e =>
    cases h2 : gen fallback_model_name (mkPrompt t) with
    | ok r => exact Or.inr (Or.inl ⟨e, r, rfl, rfl, by simp [analyze_with_gemini, h1, h2]⟩)
    | error fe =>
      exact Or.inr (Or.inr ⟨e, fe, rfl, rfl, by simp [analyze_with_gemini, h1, h2]⟩)

/-! ### Claim C2 -/

/-- C2 counterexample: the claim says a non-200 issue-detail status makes
fetch return an error carrying that status code, but the comments request
(issued before the status check) raises first and its message masks the
status: the fetch error is "boom" and mentions no 404. -/
theorem claim2_counterexample :
    fetch_github_data httpMask "https://github.com/o/r" 1 1 = (none, some "boom") ∧
    hasSub "boom".data "404".data = false :=
  ⟨rfl, rfl⟩

/-- C2 (amended): when the issue-detail request returns a non-200 status
and the two best-effort requests at least return (they may have any
status), fetch returns no snapshot and an error carrying the status code,
render shows the error view, and no analyzer call is made. -/
theorem claim2_main (http : HttpOracle) (repo_url : String) (issue_number page : Int)
    (owner repo : String) (resp cres lres : HttpResp)
    (hparse : parseOwnerRepo repo_url = .ok (owner, repo))
    (hissue : http (issueUrl owner repo issue_number) = .ok resp)
    (hstatus : resp.status ≠ 200)
    (hcomments : http (commentsUrl owner repo issue_number) = .ok cres)
    (hlist : http (issuesListUrl owner repo page) = .ok lres) :
    fetch_github_data http repo_url issue_number page =
      (none, some ("Error fetching issue: " ++ toString resp.status)) ∧
    ∀ (gen : GenOracle) (lm : ListModelsOracle),
      (render_dashboard http gen lm repo_url issue_number page).1 =
        .ok (.errorView ("Could not find issue: " ++
          ("Error fetching issue: " ++ toString resp.status))) ∧
      (render_dashboard http gen lm repo_url issue_number page).2 = 0 := by
  have hfetch : fetch_github_data http repo_url issue_number page =
      (none, some ("Error fetching issue: " ++ toString resp.status)) := by
    simp [fetch_github_data, fetchBody, hparse, hissue, hcomments, hlist, hstatus,
      Bind.bind, Except.bind, throw, throwThe, MonadExceptOf.throw]
  have hne : pyTruthy (some ("Error fetching issue: " ++ toString resp.status)) = true := by
    have h22 : ("Error fetching issue: " : String).length = 22 := rfl
    simp only [pyTruthy, bne_iff_ne, ne_eq, String.length_append, h22]
    omega
  refine ⟨hfetch, ?_⟩
  intro gen lm
  constructor
  · simp [render_dashboard, hfetch, hne]
  · simp [render_dashboard, hfetch, hne]

/-- C2 witness: concrete 404 on the issue-detail request, other requests
fine; the fetch error carries the status and no analyzer call happens. -/
theorem claim2_witness :
    fetch_github_data http404 "https://github.com/o/r" 1 1 =
      (none, some ("Error fetching issue: " ++ toString (404 : Int))) ∧
    (render_dashboard http404 genDown lmDown "https://github.com/o/r" 1 1).2 = 0 :=
  ⟨(claim2_main http404 "https://github.com/o/r" 1 1 "o" "r" ⟨404, .ok .null⟩
      ⟨200, .ok (.arr [])⟩ ⟨200, .ok (.arr [])⟩ rfl rfl (by decide) rfl rfl).1,
   ((claim2_main http404 "https://github.com/o/r" 1 1 "o" "r" ⟨404, .ok .null⟩
      ⟨200, .ok (.arr [])⟩ ⟨200, .ok (.arr [])⟩ rfl rfl (by decide) rfl rfl).2
      genDown lmDown).2⟩

/-! ### Prefix and substring lemmas for Claim C7 -/

theorem isPfx_append_self (pat rest : List Char) : isPfx pat (pat ++ rest) = true := by
  induction pat with
  | nil => rfl
  | cons p ps ih => simp [isPfx, ih]

theorem isPfx_length_le (pat l : List Char) (h : isPfx pat l = true) :
    pat.length ≤ l.length := by
  induction pat generalizing l with
  | nil => simp
  | cons p ps ih =>
    cases l with
    | nil => simp [isPfx] at h
    | cons b bs =>
      simp only [isPfx, Bool.and_eq_true] at h
      simpa using ih bs h.2

theorem isPfx_append_left (a b l : List Char) (h : isPfx (a ++ b) l = true) :
    isPfx a l = true := by
  induction a generalizing l with
  | nil => rfl
  | cons c a2 ih =>
    cases l with
    | nil => simp [isPfx] at h
    | cons d l2 =>
      simp only [List.cons_append, isPfx, Bool.and_eq_true] at h ⊢
      exact ⟨h.1, ih l2 h.2⟩

theorem isPfx_trim_right (pat s y : List Char) (hl : pat.length ≤ s.length)
    (h : isPfx pat (s ++ y) = true) : isPfx pat s = true := by
  induction pat generalizing s with
  | nil => rfl
  | cons p ps ih =>
    cases s with
    | nil => simp at hl
    | cons a s2 =>
      simp only [List.cons_append, isPfx, Bool.and_eq_true] at h ⊢
      exact ⟨h.1, ih s2 (by simpa using hl) h.2⟩

theorem hasSub_of_isPfx_drop (pat l : List Char) (i : Nat)
    (h : isPfx pat (l.drop i) = true) : hasSub l pat = true := by
  induction l generalizing i with
  | nil =>
    simp only [List.drop_nil] at h
    simpa [hasSub] using h
  | cons c t ih =>
    cases i with
    | zero =>
      simp only [List.drop_zero] at h
      simp [hasSub, h]
    | succ j =>
      simp only [List.drop_succ_cons] at h
      simp [hasSub, ih j h]

theorem hasSub_cons_ne (c : Char) (l : List Char) (p : Char) (ps : List Char)
    (h : (p == c) = false) : hasSub (c :: l) (p :: ps) = hasSub l (p :: ps) := by
  simp [hasSub, isPfx, h]

theorem isPfx_append_single (c : Char) (pat : List Char) (hc : c ∉ pat) :
    ∀ l, isPfx pat (l ++ [c]) = true → isPfx pat l = true := by
  induction pat with
  | nil => intro l _; rfl
  | cons q qs ih =>
    intro l h
    cases l with
    | nil =>
      simp only [List.nil_append, isPfx, Bool.and_eq_true] at h
      have hq : q = c := by
        cases qs with
        | nil => simpa using h.1
        | cons _ _ => simp [isPfx] at h
      exact absurd (hq ▸ List.mem_cons_self q qs) hc
    | cons d l2 =>
      simp only [List.cons_append, isPfx, Bool.and_eq_true] at h ⊢
      exact ⟨h.1, ih (fun hm => hc (List.mem_cons_of_mem q hm)) l2 h.2⟩

theorem hasSub_append_single (c p : Char) (ps : List Char) (hc : c ∉ p :: ps) :
    ∀ l, hasSub (l ++ [c]) (p :: ps) = true → hasSub l (p :: ps) = true := by
  intro l
  induction l with
  | nil =>
    intro h
    simp only [List.nil_append, hasSub, isPfx] at h
    have h1 : isPfx (p :: ps) [c] = true := by
      simpa [hasSub, isPfx] using h
    have h2 := isPfx_append_single c (p :: ps) hc [] h1
    simp [isPfx] at h2
  | cons a l2 ih =>
    intro h
    simp only [List.cons_append, hasSub, Bool.or_eq_true] at h ⊢
    rcases h with h | h
    · exact Or.inl (isPfx_append_single c (p :: ps) hc (a :: l2) h)
    · exact Or.inr (ih h)

/-! ### str.replace lemmas for Claim C7 -/

theorem replaceF_fuel_eq (pat rep : List Char) (hpat : pat ≠ []) :
    ∀ f1 f2 hay, hay.length < f1 → hay.length < f2 →
      replaceF f1 hay pat rep = replaceF f2 hay pat rep := by
  have hpl : 0 < pat.length := List.length_pos.mpr hpat
  intro f1
  induction f1 with
  | zero => intro f2 hay h1 _; simp at h1
  | succ n1 ih =>
    intro f2 hay h1 h2
    cases f2 with
    | zero => simp at h2
    | succ n2 =>
      cases hay with
      | nil => rfl
      | cons h t =>
        simp only [replaceF]
        by_cases hp : isPfx pat (h :: t) = true
        · simp only [hp, if_true]
          congr 1
          apply ih
          · simp only [List.length_drop, List.length_cons]
            simp only [List.length_cons] at h1
            omega
          · simp only [List.length_drop, List.length_cons]
            simp only [List.length_cons] at h2
            omega
        · have hp0 : isPfx pat (h :: t) = false := by simpa using hp
          simp only [hp0, Bool.false_eq_true, if_false]
          congr 1
          apply ih
          · simp only [List.length_cons] at h1
            omega
          · simp only [List.length_cons] at h2
            omega

theorem replaceL_cons_neg (pat rep : List Char) (hd : Char) (t : List Char)
    (h : isPfx pat (hd :: t) = false) :
    replaceL (hd :: t) pat rep = hd :: replaceL t pat rep := by
  cases pat with
  | nil => simp [isPfx] at h
  | cons p ps =>
    simp only [replaceL, List.length_cons, replaceF, h, Bool.false_eq_true, if_false]

theorem replaceL_pfx (pat rest rep : List Char) (hpat : pat ≠ []) :
    replaceL (pat ++ rest) pat rep = rep ++ replaceL rest pat rep := by
  cases pat with
  | nil => exact absurd rfl hpat
  | cons p ps =>
    have hpfx : isPfx (p :: ps) (p :: (ps ++ rest)) = true := by
      have := isPfx_append_self (p :: ps) rest
      simpa using this
    simp only [replaceL, List.cons_append, List.length_cons, replaceF, List.append_eq,
      hpfx, if_true]
    congr 1
    have hdrop : List.drop (ps.length + 1) (p :: (ps ++ rest)) = rest := by
      simp
    rw [hdrop]
    apply replaceF_fuel_eq _ _ hpat
    · simp only [List.length_append]
      omega
    · omega

theorem replaceL_no_occur (pat rep : List Char) :
    ∀ hay, hasSub hay pat = false → replaceL hay pat rep = hay := by
  intro hay
  induction hay with
  | nil =>
    intro h
    cases pat with
    | nil => simp [hasSub, isPfx] at h
    | cons p ps => rfl
  | cons c t ih =>
    intro h
    simp only [hasSub, Bool.or_eq_false_iff] at h
    rw [replaceL_cons_neg pat rep c t h.1, ih h.2]

theorem replaceL_append_right (pat rep y : List Char) :
    ∀ x, (∀ i, i < x.length → isPfx pat (x.drop i ++ y) = false) →
      replaceL (x ++ y) pat rep = x ++ replaceL y pat rep := by
  intro x
  induction x with
  | nil => intro _; simp
  | cons c x2 ih =>
    intro h
    have h0 : isPfx pat (c :: (x2 ++ y)) = false := by
      have := h 0 (by simp)
      simpa using this
    rw [show (c :: x2) ++ y = c :: (x2 ++ y) from rfl]
    rw [replaceL_cons_neg pat rep c (x2 ++ y) h0]
    rw [ih (fun i hi => by
      have := h (i + 1) (by simp; omega)
      simpa using this)]
    rfl

/-! ### str.strip lemmas for Claim C7 -/

theorem dropWhile_nl_cons (z : List Char) :
    List.dropWhile pyIsSpace (nlC :: z) = List.dropWhile pyIsSpace z := by
  have h : pyIsSpace nlC = true := by decide
  simp [List.dropWhile_cons, h]

theorem trimRightL_append_nl (m : List Char) :
    trimRightL (m ++ [nlC]) = trimRightL m := by
  simp only [trimRightL, List.reverse_append, List.reverse_cons, List.reverse_nil,
    List.nil_append, List.singleton_append]
  rw [dropWhile_nl_cons]

theorem strip_cons_nl (q : List Char) :
    trimLeftL (trimRightL (nlC :: q)) = trimLeftL (trimRightL q) := by
  have hnl : pyIsSpace nlC = true := by decide
  by_cases hq : List.dropWhile pyIsSpace q.reverse = []
  · have h1 : trimRightL (nlC :: q) = [] := by
      simp only [trimRightL, List.reverse_cons]
      rw [List.dropWhile_append]
      simp [hq, List.dropWhile_cons, hnl]
    have h2 : trimRightL q = [] := by simp [trimRightL, hq]
    rw [h1, h2]
  · have hq0 : (List.dropWhile pyIsSpace q.reverse).isEmpty = false := by
      simpa [List.isEmpty_iff] using hq
    have h1 : trimRightL (nlC :: q) = nlC :: trimRightL q := by
      simp only [trimRightL, List.reverse_cons]
      rw [List.dropWhile_append]
      simp [hq0, List.reverse_append]
    rw [h1]
    simp only [trimLeftL]
    exact dropWhile_nl_cons _

/-! ### Fence facts for Claim C7 -/

theorem fence3_ne_nil : fence3 ≠ [] := by decide

theorem fence7_ne_nil : fence7 ≠ [] := by decide

theorem hasSub_fence3_fence7 : hasSub fence3 fence7 = false := by decide

theorem fence3_data : ("```" : String).data = fence3 := by decide

theorem fence7_data : ("```json" : String).data = fence7 := by decide

theorem fence7nl_data : ("```json\n" : String).data = fence7 ++ [nlC] := by decide

theorem nlfence3_data : ("\n```" : String).data = nlC :: fence3 := by decide

theorem fence7_decomp : fence7 = fence3 ++ jsonTail := rfl

/-- A suffix of the wrapped payload of length at most one, followed by
the closing newline and a fence, never starts with the fence. -/
theorem isPfx_fence3_short (w : List Char) (hw : w.length ≤ 1) (z : List Char) :
    isPfx fence3 (w ++ nlC :: z) = false := by
  have ht : (tickC == nlC) = false := by decide
  match w with
  | [] => simp [fence3, isPfx, ht]
  | [a] => simp [fence3, isPfx, ht]
  | a :: b :: w2 => simp at hw

/-- A payload free of fences, wrapped in the surrounding newlines, stays
free of fences. -/
theorem hasSub_wrap_free (p : List Char) (hp : hasSub p fence3 = false) :
    hasSub (nlC :: (p ++ [nlC])) fence3 = false := by
  have h1 : hasSub (nlC :: (p ++ [nlC])) fence3 = hasSub (p ++ [nlC]) fence3 := by
    have := hasSub_cons_ne nlC (p ++ [nlC]) tickC [tickC, tickC] (by decide)
    simpa [fence3] using this
  rw [h1]
  by_contra hc
  have hc' : hasSub (p ++ [nlC]) (tickC :: [tickC, tickC]) = true := by
    simpa [fence3] using hc
  have h2 := hasSub_append_single nlC tickC [tickC, tickC] (by decide) p hc'
  rw [show (tickC :: [tickC, tickC]) = fence3 from rfl] at h2
  rw [hp] at h2
  simp at h2

/-- No position of the newline-wrapped payload, extended by the closing
fence, starts an occurrence of the fence. -/
theorem fence_pos_free (p : List Char) (hp : hasSub p fence3 = false) :
    ∀ i, i < (nlC :: (p ++ [nlC])).length →
      isPfx fence3 ((nlC :: (p ++ [nlC])).drop i ++ fence3) = false := by
  intro i hi
  by_cases h3 : 3 ≤ ((nlC :: (p ++ [nlC])).drop i).length
  · by_contra hcon
    have hcon' : isPfx fence3 ((nlC :: (p ++ [nlC])).drop i ++ fence3) = true := by
      simpa using hcon
    have h4 : isPfx fence3 ((nlC :: (p ++ [nlC])).drop i) = true :=
      isPfx_trim_right _ _ _ (by simpa [fence3] using h3) hcon'
    have h5 := hasSub_of_isPfx_drop fence3 (nlC :: (p ++ [nlC])) i h4
    rw [hasSub_wrap_free p hp] at h5
    simp at h5
  · push_neg at h3
    have h3' : p.length + 2 - i < 3 := by
      simpa [List.length_drop] using h3
    have hi' : i < p.length + 2 := by
      simpa using hi
    have hile : i ≤ (nlC :: p).length := by
      simp only [List.length_cons]
      omega
    have hsplit : (nlC :: (p ++ [nlC])).drop i = ((nlC :: p).drop i) ++ [nlC] := by
      rw [show nlC :: (p ++ [nlC]) = (nlC :: p) ++ [nlC] from by simp]
      exact List.drop_append_of_le_length hile
    have hwlen : ((nlC :: p).drop i).length ≤ 1 := by
      simp only [List.length_drop, List.length_cons]
      omega
    rw [hsplit, List.append_assoc, List.singleton_append]
    exact isPfx_fence3_short _ hwlen _

/-! ### Claim C7 -/

/-- C7 counterexample: the claim says fence stripping leaves the payload
otherwise unchanged, but replace removes every occurrence, so a payload
whose JSON string holds a fence is corrupted. -/
theorem claim7_counterexample :
    cleanResponseText "```json\n\x7b\"a\": \"```\"\x7d\n```" = "\x7b\"a\": \"\"\x7d" ∧
    cleanResponseText "```json\n\x7b\"a\": \"```\"\x7d\n```" ≠ "\x7b\"a\": \"```\"\x7d" :=
  ⟨rfl, by decide⟩

/-- C7 (amended): for every payload that itself holds no occurrence of
the fence marker, a response wrapped as fence, newline, payload, newline,
fence is normalized to the payload with surrounding whitespace trimmed
and nothing else changed. -/
theorem claim7_main (p : String) (hp : hasSub p.data ("```" : String).data = false) :
    cleanResponseText ("```json\n" ++ p ++ "\n```") = pyStrip p := by
  have hp3 : hasSub p.data fence3 = false := by rwa [fence3_data] at hp
  have hdata : ("```json\n" ++ p ++ "\n```").data =
      fence7 ++ ((nlC :: (p.data ++ [nlC])) ++ fence3) := by
    rw [String.data_append, String.data_append, fence7nl_data, nlfence3_data]
    simp [List.append_assoc]
  have H3 := fence_pos_free p.data hp3
  have H7 : ∀ i, i < (nlC :: (p.data ++ [nlC])).length →
      isPfx fence7 ((nlC :: (p.data ++ [nlC])).drop i ++ fence3) = false := by
    intro i hi
    by_contra hc
    have hc' : isPfx fence7 ((nlC :: (p.data ++ [nlC])).drop i ++ fence3) = true := by
      simpa using hc
    have h3 := isPfx_append_left fence3 jsonTail _ (by rwa [← fence7_decomp])
    rw [H3 i hi] at h3
    simp at h3
  have step1 : replaceL ("```json\n" ++ p ++ "\n```").data ("```json" : String).data [] =
      (nlC :: (p.data ++ [nlC])) ++ fence3 := by
    rw [hdata, fence7_data,
      replaceL_pfx fence7 ((nlC :: (p.data ++ [nlC])) ++ fence3) [] fence7_ne_nil,
      replaceL_append_right fence7 [] fence3 (nlC :: (p.data ++ [nlC])) H7,
      replaceL_no_occur fence7 [] fence3 hasSub_fence3_fence7]
    simp
  have step2 : replaceL ((nlC :: (p.data ++ [nlC])) ++ fence3) ("```" : String).data [] =
      nlC :: (p.data ++ [nlC]) := by
    rw [fence3_data, replaceL_append_right fence3 [] fence3 (nlC :: (p.data ++ [nlC])) H3]
    have hz : replaceL fence3 fence3 [] = [] := by
      have := replaceL_pfx fence3 [] [] fence3_ne_nil
      simpa using this
    rw [hz]
    simp
  have e1 : pyReplace ("```json\n" ++ p ++ "\n```") "```json" "" =
      String.mk ((nlC :: (p.data ++ [nlC])) ++ fence3) := by
    unfold pyReplace
    rw [show ("" : String).data = [] from rfl, step1]
  have e2 : pyReplace (String.mk ((nlC :: (p.data ++ [nlC])) ++ fence3)) "```" "" =
      String.mk (nlC :: (p.data ++ [nlC])) := by
    unfold pyReplace
    rw [show (String.mk ((nlC :: (p.data ++ [nlC])) ++ fence3)).data =
        (nlC :: (p.data ++ [nlC])) ++ fence3 from rfl]
    rw [show ("" : String).data = [] from rfl, step2]
  have e3 : pyStrip (String.mk (nlC :: (p.data ++ [nlC]))) = pyStrip p := by
    unfold pyStrip
    congr 1
    rw [show (String.mk (nlC :: (p.data ++ [nlC]))).data = nlC :: (p.data ++ [nlC]) from rfl]
    have h1 : trimRightL (nlC :: (p.data ++ [nlC])) = trimRightL (nlC :: p.data) := by
      have := trimRightL_append_nl (nlC :: p.data)
      simpa using this
    rw [h1]
    exact strip_cons_nl p.data
  unfold cleanResponseText
  rw [e1, e2, e3]

/-- C7 witness: a fence-free JSON payload wrapped in fences comes back
exactly (it carries no surrounding whitespace of its own). -/
theorem claim7_witness :
    hasSub ("\x7b\"a\": 1\x7d" : String).data ("```" : String).data = false ∧
    cleanResponseText ("```json\n" ++ "\x7b\"a\": 1\x7d" ++ "\n```") =
      pyStrip "\x7b\"a\": 1\x7d" ∧
    pyStrip "\x7b\"a\": 1\x7d" = "\x7b\"a\": 1\x7d" :=
  ⟨rfl, claim7_main "\x7b\"a\": 1\x7d" rfl, rfl⟩

end GithubChecker
